import Mathlib

/-!
Shallow embedding of the legitify repository collector
(`internal/collectors/repositories.go`): the data model, the per-repository
enrichment stages, the branch-protection fix-up, pagination, retry and
metadata collection, together with theorems settling the specification
claims about them.
-/

namespace Legitify

/-- Required capabilities, from `internal/common/permissions`. -/
inductive Capability where
  | RepoAdmin
  | RepoHookRead
deriving DecidableEq, Repr

/-- Resource namespaces, from `internal/common/namespace`. -/
inductive NamespaceKind where
  | Repository
  | Organization
deriving DecidableEq, Repr

/-- A `missingPermission` record: capability, fully-qualified entity name,
human-readable effect, and the namespace it belongs to. -/
structure MissingPermissionRec where
  permission : Capability
  entity : String
  effect : String
  ns : NamespaceKind
deriving DecidableEq, Repr

/-- Errors surfaced by the transport client. `errorResponse` carries the
`github.ErrorResponse` message (and HTTP status), `errBranchNotProtected`
is the sentinel `github.ErrBranchNotProtected`, and `other` is any other
operational error. -/
inductive GHError where
  | errorResponse (message : String) (status : Nat)
  | errBranchNotProtected
  | other (msg : String)
deriving DecidableEq, Repr

/-- A branch-protection rule as returned by the structured (GraphQL) query
or the REST `GetBranchProtection` call. -/
structure BranchProtectionRule where
  requiresStatusChecks : Bool
deriving DecidableEq, Repr

/-- `DefaultBranchRef` of a `GitHubQLRepository`: branch name plus the
optionally-present branch-protection rule from the structured query. -/
structure DefaultBranchRef where
  name : String
  branchProtectionRule : Option BranchProtectionRule
deriving DecidableEq, Repr

/-- The repository node returned by the structured (GraphQL) repositories
query (`ghcollected.GitHubQLRepository`). -/
structure GitHubQLRepository where
  name : String
  url : String
  isPrivate : Bool
  viewerPermission : String
  defaultBranchRef : Option DefaultBranchRef
deriving DecidableEq, Repr

/-- A repository webhook. -/
abbrev Hook := String

/-- A repository collaborator. -/
abbrev User := String

/-- A scorecard result. -/
abbrev ScorecardResult := Nat

/-- The collected repository (`ghcollected.Repository`): the query node plus
the independently-nilable enrichment fields. Absence (`none`) means "not
collected". `noBranchProtectionPermission` is the permission-denied flag set
by the branch-protection fix-up. -/
structure Repository where
  repository : GitHubQLRepository
  vulnerabilityAlertsEnabled : Option Bool := none
  hooks : Option (List Hook) := none
  collaborators : Option (List User) := none
  noBranchProtectionPermission : Bool := false
  scorecard : Option ScorecardResult := none
deriving DecidableEq, Repr

/-- An organization (`ghcollected.ExtendedOrg`): login, viewer role and the
plan tier (`IsFree`). -/
structure ExtendedOrg where
  login : String
  role : String
  isFree : Bool
deriving DecidableEq, Repr

def fullRepoName (org repoName : String) : String :=
  org ++ "/" ++ repoName

/-- Effect attached to the free-plan missing permission
(constant `orgIsFreeEffect` of the source). -/
def orgIsFreeEffect : String :=
  "Branch protection cannot be collected because the organization is in free plan"

def newMissingPermission (p : Capability) (entity effect : String)
    (ns : NamespaceKind) : MissingPermissionRec :=
  { permission := p, entity := entity, effect := effect, ns := ns }

/-- `isNoPermErr` of `fixBranchProtectionInfo`: the error is a
`github.ErrorResponse` whose message equals "Not Found". -/
def isNoPermErr : GHError → Bool
  | GHError.errorResponse message _ => message = "Not Found"
  | _ => false

/-- `fixBranchProtectionInfo`: fixes the branch-protection info of a
repository to reflect whether there is no protection or just no permission
to fetch it. `bpCall` is the result of the REST `GetBranchProtection` call
for the repository's default branch. Returns the repository, the
operational error (if any), and whether the REST call was made. -/
def fixBranchProtectionInfo (bpCall : Except GHError BranchProtectionRule)
    (repository : Repository) : Repository × Option GHError × Bool :=
  match repository.repository.defaultBranchRef with
  | none => (repository, none, false)
  | some dbr =>
    match dbr.branchProtectionRule with
    | some _ => (repository, none, false)
    | none =>
      match bpCall with
      | Except.ok _ => (repository, none, true)
      | Except.error err =>
        if isNoPermErr err then
          ({ repository with noBranchProtectionPermission := true }, none, true)
        else if err = GHError.errBranchNotProtected then
          (repository, none, true)
        else
          (repository, some err, true)

/-- `checkMissingPermissions`: one RepoAdmin missing-permission record when
the permission-denied flag is set, none otherwise. -/
def checkMissingPermissions (repo : Repository) (entityName : String) :
    List MissingPermissionRec :=
  if repo.noBranchProtectionPermission then
    [newMissingPermission Capability.RepoAdmin entityName
      "Cannot read repository branch protection information" NamespaceKind.Repository]
  else []

/-- One REST page of webhooks: the items plus whether the response announces
a next page (`resp.NextPage != 0`). -/
structure HookPage where
  hooks : List Hook
  hasNext : Bool
deriving DecidableEq, Repr

/-- Modelled from the spec: `ghclient.PaginateResults` (the paged-REST
Paginator, not under src/) repeatedly invokes the page handler and stops on
the first error or on exhaustion. The handler body is translated from
`getRepositoryHooks`: accumulate the page's hooks; on an error whose
response status is 404, issue one RepoHookRead missing permission, then
return the error. The transport is the sequence of per-page call results,
an error carrying the response's HTTP status. -/
def runHookPages (org repoName : String) :
    List (Except Nat HookPage) → List Hook →
    Except Nat (List Hook) × List MissingPermissionRec
  | [], acc => (Except.ok acc, [])
  | Except.error status :: _, _ =>
    (Except.error status,
      if status = 404 then
        [newMissingPermission Capability.RepoHookRead (fullRepoName org repoName)
          "Cannot read repository webhooks" NamespaceKind.Repository]
      else [])
  | Except.ok page :: rest, acc =>
    if page.hasNext then runHookPages org repoName rest (acc ++ page.hooks)
    else (Except.ok (acc ++ page.hooks), [])

/-- `getRepositoryHooks`: paginate the webhook listing; on success set the
`hooks` field, on any error return the repository unchanged together with
the error. Also returns the missing permissions issued along the way. -/
def getRepositoryHooks (pages : List (Except Nat HookPage))
    (repo : Repository) (org : String) :
    Repository × Option Nat × List MissingPermissionRec :=
  match runHookPages org repo.repository.name pages [] with
  | (Except.error status, perms) => (repo, some status, perms)
  | (Except.ok result, perms) => ({ repo with hooks := some result }, none, perms)

/-- The per-repository transport results consumed by `collectExtraData`:
one entry per enrichment stage of the source. -/
structure RepoClient where
  vulnerabilityAlerts : Except GHError Bool
  hookPages : List (Except Nat HookPage)
  collaborators : Except GHError (List User)
  branchProtection : Except GHError BranchProtectionRule
  scorecardResult : Except GHError ScorecardResult

/-- Result of `collectExtraData`: the enriched repository, the missing
permissions issued through `issueMissingPermissions` while enriching, and
the number of REST `GetBranchProtection` calls made. -/
structure ExtraDataResult where
  repo : Repository
  issued : List MissingPermissionRec
  bpCalls : Nat
deriving DecidableEq, Repr

/-- `collectExtraData`: run the enrichment stages in source order
(vulnerability alerts, hooks, collaborators, branch protection gated by the
free-plan/private check, scorecard). Every stage error is logged and leaves
its field absent; the repository is always returned. -/
def collectExtraData (scorecardEnabled : Bool) (client : RepoClient)
    (org : ExtendedOrg) (repository : GitHubQLRepository) : ExtraDataResult :=
  let repo : Repository := { repository := repository }
  let repo := match client.vulnerabilityAlerts with
    | Except.ok enabled => { repo with vulnerabilityAlertsEnabled := some enabled }
    | Except.error _ => repo
  let hookStep := getRepositoryHooks client.hookPages repo org.login
  let repo := hookStep.1
  let hookPerms := hookStep.2.2
  let repo := match client.collaborators with
    | Except.ok users => { repo with collaborators := some users }
    | Except.error _ => repo
  let bpStep :=
    if !repo.repository.isPrivate || !org.isFree then
      let fix := fixBranchProtectionInfo client.branchProtection repo
      (fix.1, ([] : List MissingPermissionRec), if fix.2.2 then 1 else 0)
    else
      (repo,
        [newMissingPermission Capability.RepoAdmin
          (fullRepoName org.login repo.repository.name) orgIsFreeEffect
          NamespaceKind.Repository],
        0)
  let repo := bpStep.1
  let bpPerms := bpStep.2.1
  let repo :=
    if scorecardEnabled then
      match client.scorecardResult with
      | Except.ok sc => { repo with scorecard := some sc }
      | Except.error _ => { repo with scorecard := none }
    else repo
  { repo := repo, issued := hookPerms ++ bpPerms, bpCalls := bpStep.2.2 }

/-- `GitHubQLPageInfo`: cursor-based pagination info of the structured
query. -/
structure GitHubQLPageInfo where
  hasNextPage : Bool
  endCursor : String
deriving DecidableEq, Repr

/-- One page of the structured repositories query (`repoQuery`). -/
structure RepoPage where
  pageInfo : GitHubQLPageInfo
  nodes : List GitHubQLRepository
deriving DecidableEq, Repr

/-- The per-item unit spawned inside `collectRepositories`: enrich the node
(`collectExtraData`), compute the entity name, check missing permissions and
issue them, then hand the repository to `collectData`. Returns the emitted
repository together with every missing permission issued for it. -/
def processNode (scorecardEnabled : Bool) (client : String → RepoClient)
    (org : ExtendedOrg) (node : GitHubQLRepository) :
    Repository × List MissingPermissionRec :=
  let res := collectExtraData scorecardEnabled (client node.name) org node
  let entityName := fullRepoName org.login res.repo.repository.name
  let mp := checkMissingPermissions res.repo entityName
  (res.repo, res.issued ++ mp)

/-- The pagination loop of `collectRepositories`: issue the structured query
at the current cursor, return immediately on a transport error (repositories
emitted by earlier pages stay emitted — their units were already spawned),
process the page's nodes, and while `hasNextPage` feed the page's
`endCursor` into the next query. `fuel` bounds the unbounded `for` loop.
Returns the emitted repositories (with their issued permissions), the
transport error if any, and the trace of cursors queried. -/
def collectRepositoriesLoop (transport : Option String → Except GHError RepoPage)
    (scorecardEnabled : Bool) (client : String → RepoClient) (org : ExtendedOrg) :
    Nat → Option String →
    List (Repository × List MissingPermissionRec) × Option GHError × List (Option String)
  | 0, _ => ([], none, [])
  | fuel + 1, cursor =>
    match transport cursor with
    | Except.error e => ([], some e, [cursor])
    | Except.ok page =>
      let processed := page.nodes.map (processNode scorecardEnabled client org)
      if page.pageInfo.hasNextPage then
        let rest := collectRepositoriesLoop transport scorecardEnabled client org
          fuel (some page.pageInfo.endCursor)
        (processed ++ rest.1, rest.2.1, cursor :: rest.2.2)
      else
        (processed, none, [cursor])

/-- `collectRepositories`: the whole-traversal pagination walk for one
organization, starting from the nil cursor. -/
def collectRepositories (transport : Option String → Except GHError RepoPage)
    (scorecardEnabled : Bool) (client : String → RepoClient) (org : ExtendedOrg)
    (fuel : Nat) :
    List (Repository × List MissingPermissionRec) × Option GHError × List (Option String) :=
  collectRepositoriesLoop transport scorecardEnabled client org fuel none

/-- Modelled from the spec: `utils.Retry` (the RetryRunner, not under src/)
re-invokes a fallible operation until it signals success (no error) or the
maximum attempt count is exhausted, surfacing the last error if exhausted.
Because each attempt of the traversal emits its collected entities through
channels as it runs, the outputs of every attempt accumulate; `op` is
indexed by the attempt number, `start` is the index of the next attempt. -/
def retryRun {α : Type} (op : Nat → List α × Option GHError) :
    Nat → Nat → List α × Option GHError
  | _, 0 => ([], none)
  | start, 1 => op start
  | start, n + 2 =>
    match op start with
    | (out, none) => (out, none)
    | (out, some _) =>
      let rest := retryRun op (start + 1) (n + 1)
      (out ++ rest.1, rest.2)

/-- `Collect` for the repository namespace: discover the organizations (the
one fatal path — on error, log and emit nothing), then for each organization
run the whole-traversal collection under `utils.Retry` with 5 attempts,
ignoring the retry's final error. The per-organization transport is indexed
by the attempt number. Returns every emitted repository with its issued
permissions. -/
def Collect (discovery : Except GHError (List ExtendedOrg))
    (transport : ExtendedOrg → Nat → Option String → Except GHError RepoPage)
    (scorecardEnabled : Bool) (client : ExtendedOrg → String → RepoClient)
    (fuel : Nat) : List (Repository × List MissingPermissionRec) :=
  match discovery with
  | Except.error _ => []
  | Except.ok orgs =>
    (orgs.map (fun org =>
      (retryRun (fun attempt =>
        let run := collectRepositories (transport org attempt) scorecardEnabled
          (client org) org fuel
        (run.1, run.2.1)) 0 5).1)).flatten

/-- Wrap of the two's-complement `int32` accumulator `totalCount`. -/
def int32wrap (x : Int) : Int :=
  (x + 2 ^ 31) % 2 ^ 32 - 2 ^ 31

/-- The pre-flight metadata. -/
structure Metadata where
  totalEntities : Int := 0
deriving DecidableEq, Repr

/-- `CollectMetadata`: discover the organizations (on error return the zero
metadata), then run one count-only query per organization, summing the
successful counts into the shared `int32` accumulator and silently skipping
organizations whose query failed. No missing permission is issued on this
path. The returned list is the set of missing permissions issued. -/
def CollectMetadata (discovery : Except GHError (List ExtendedOrg))
    (countQuery : ExtendedOrg → Except GHError Int) :
    Metadata × List MissingPermissionRec :=
  match discovery with
  | Except.error _ => ({ totalEntities := 0 }, [])
  | Except.ok orgs =>
    let total := orgs.foldl (fun acc org =>
      match countQuery org with
      | Except.error _ => acc
      | Except.ok c => int32wrap (acc + int32wrap c)) 0
    ({ totalEntities := total }, [])

/-- The successful per-organization counts, in discovery order. -/
def succeededCounts (orgs : List ExtendedOrg)
    (countQuery : ExtendedOrg → Except GHError Int) : List Int :=
  orgs.filterMap (fun org => (countQuery org).toOption)

/-- A micro-operation of the unsynchronized `totalCount += count` performed
by each of `CollectMetadata`'s concurrently spawned `gw.Do` closures: the
compiled increment first reads the shared variable into a unit-local
register, then writes back the register plus the unit's count. -/
inductive RaceAct where
  | readShared (unit : Nat)
  | writeShared (unit : Nat)
deriving DecidableEq, Repr

/-- One step of the interleaving semantics of the bare shared accumulator:
state is the shared `totalCount` plus each unit's local register. -/
def raceStep (counts : List Int) (s : Int × List (Option Int)) (a : RaceAct) :
    Int × List (Option Int) :=
  match a with
  | RaceAct.readShared u => (s.1, s.2.set u (some s.1))
  | RaceAct.writeShared u =>
    match s.2.getD u none with
    | none => s
    | some v => (v + counts.getD u 0, s.2)

/-- Run a schedule (an interleaving of the units' read/write pairs) of the
unsynchronized accumulation and return the final shared `totalCount`. -/
def runRace (counts : List Int) (sched : List RaceAct) : Int :=
  (sched.foldl (raceStep counts) (0, List.replicate counts.length none)).1

/-- A schedule is a valid interleaving of `n` incrementer units: each unit
reads once and writes once, its read before its write. -/
def ValidSchedule (n : Nat) (sched : List RaceAct) : Bool :=
  sched.length = 2 * n &&
  (List.range n).all (fun u =>
    sched.count (RaceAct.readShared u) = 1 &&
    sched.count (RaceAct.writeShared u) = 1 &&
    sched.indexOf (RaceAct.readShared u) < sched.indexOf (RaceAct.writeShared u))

/-- The interleaving in which both units read the shared accumulator before
either writes back: the classic lost update. -/
def lostUpdateSchedule : List RaceAct :=
  [RaceAct.readShared 0, RaceAct.readShared 1,
   RaceAct.writeShared 0, RaceAct.writeShared 1]

/-- The serialized interleaving a mutual-exclusion strategy would enforce. -/
def serializedSchedule : List RaceAct :=
  [RaceAct.readShared 0, RaceAct.writeShared 0,
   RaceAct.readShared 1, RaceAct.writeShared 1]

/-- The cursors a sequential traversal queries while walking `pages` from
`c`: each page's end cursor is fed into the next query. -/
def cursorsOf (c : Option String) : List RepoPage → List (Option String)
  | [] => []
  | p :: ps => c :: cursorsOf (some p.pageInfo.endCursor) ps

/-- The transport deterministically presents the page list `pages` starting
at cursor `c`: every page but the last announces a next page, and each
successive page is served at the previous page's end cursor. -/
inductive Presents (transport : Option String → Except GHError RepoPage) :
    Option String → List RepoPage → Prop
  | last (c : Option String) (p : RepoPage) :
      transport c = Except.ok p → p.pageInfo.hasNextPage = false →
      Presents transport c [p]
  | cons (c : Option String) (p : RepoPage) (ps : List RepoPage) :
      transport c = Except.ok p → p.pageInfo.hasNextPage = true →
      Presents transport (some p.pageInfo.endCursor) ps →
      Presents transport c (p :: ps)

/-- The transport presents `pages` (each announcing a next page) starting at
cursor `c` and then fails with `e` at the following cursor. -/
inductive PresentsThenErr (transport : Option String → Except GHError RepoPage) :
    Option String → List RepoPage → GHError → Prop
  | here (c : Option String) (e : GHError) :
      transport c = Except.error e → PresentsThenErr transport c [] e
  | cons (c : Option String) (p : RepoPage) (ps : List RepoPage) (e : GHError) :
      transport c = Except.ok p → p.pageInfo.hasNextPage = true →
      PresentsThenErr transport (some p.pageInfo.endCursor) ps e →
      PresentsThenErr transport c (p :: ps) e

theorem collectLoop_presents (transport : Option String → Except GHError RepoPage)
    (sce : Bool) (client : String → RepoClient) (org : ExtendedOrg) :
    ∀ (pages : List RepoPage) (c : Option String),
    Presents transport c pages → ∀ fuel, pages.length ≤ fuel →
    collectRepositoriesLoop transport sce client org fuel c =
      ((pages.map (fun p => p.nodes.map (processNode sce client org))).flatten,
        none, cursorsOf c pages) := by
  intro pages c h
  induction h with
  | last c p hok hlast =>
    intro fuel hf
    cases fuel with
    | zero => simp at hf
    | succ f =>
      simp [collectRepositoriesLoop, hok, hlast, cursorsOf]
  | cons c p ps hok hnext hps ih =>
    intro fuel hf
    cases fuel with
    | zero => simp at hf
    | succ f =>
      have hlen : ps.length ≤ f := by simpa using hf
      simp [collectRepositoriesLoop, hok, hnext, ih f hlen, cursorsOf]

theorem collectLoop_presentsThenErr (transport : Option String → Except GHError RepoPage)
    (sce : Bool) (client : String → RepoClient) (org : ExtendedOrg) :
    ∀ (pages : List RepoPage) (c : Option String) (e : GHError),
    PresentsThenErr transport c pages e → ∀ fuel, pages.length < fuel →
    (collectRepositoriesLoop transport sce client org fuel c).1 =
      (pages.map (fun p => p.nodes.map (processNode sce client org))).flatten ∧
    (collectRepositoriesLoop transport sce client org fuel c).2.1 = some e := by
  intro pages c e h
  induction h with
  | here c e herr =>
    intro fuel hf
    cases fuel with
    | zero => simp at hf
    | succ f => simp [collectRepositoriesLoop, herr]
  | cons c p ps e hok hnext hps ih =>
    intro fuel hf
    cases fuel with
    | zero => simp at hf
    | succ f =>
      have hlen : ps.length < f := by simpa using hf
      obtain ⟨ih1, ih2⟩ := ih f hlen
      simp [collectRepositoriesLoop, hok, hnext, ih1, ih2]

theorem flatten_range_succ_shift {α : Type} (f : Nat → List α) (start m : Nat) :
    f start ++ ((List.range m).map (fun j => f (start + 1 + j))).flatten =
      ((List.range (m + 1)).map (fun j => f (start + j))).flatten := by
  rw [List.range_succ_eq_map]
  simp only [List.map_cons, List.map_map, List.flatten_cons, Nat.add_zero]
  congr 1
  apply congrArg
  apply List.map_congr_left
  intro k _
  simp only [Function.comp_apply]
  congr 1
  omega

theorem retryRun_first_success {α : Type} (op : Nat → List α × Option GHError) :
    ∀ (i n start : Nat), i < n →
    (∀ j, j < i → ((op (start + j)).2).isSome = true) →
    (op (start + i)).2 = none →
    retryRun op start n =
      (((List.range (i + 1)).map (fun j => (op (start + j)).1)).flatten, none) := by
  intro i
  induction i with
  | zero =>
    intro n start hn _ hok
    rcases hop : op start with ⟨out, err⟩
    have herr : err = none := by
      have h1 : (op start).2 = none := by simpa using hok
      rw [hop] at h1
      simpa using h1
    subst herr
    match n, hn with
    | 1, _ =>
      show op start = _
      have hr : List.range 1 = [0] := rfl
      simp [hop, hr]
    | (m + 2), _ =>
      rw [retryRun, hop]
      have hr : List.range 1 = [0] := rfl
      simp [hop, hr]
  | succ j ih =>
    intro n start hn hfail hok
    match n, hn with
    | (m + 2), _ =>
      have h0 : ((op start).2).isSome = true := by
        have := hfail 0 (Nat.succ_pos j)
        simpa using this
      obtain ⟨e, he⟩ := Option.isSome_iff_exists.mp h0
      have hop : op start = ((op start).1, some e) := by
        rw [← he]
      have hj : j < m + 1 := by omega
      have hfail' : ∀ k, k < j → ((op (start + 1 + k)).2).isSome = true := by
        intro k hk
        have h2 := hfail (k + 1) (by omega)
        have h3 : start + (k + 1) = start + 1 + k := by omega
        rw [h3] at h2
        exact h2
      have hok' : (op (start + 1 + j)).2 = none := by
        have h3 : start + 1 + j = start + (j + 1) := by omega
        rw [h3]; exact hok
      have ihm := ih (m + 1) (start + 1) hj hfail' hok'
      rw [retryRun, hop]
      simp only [ihm]
      rw [Prod.mk.injEq]
      exact ⟨flatten_range_succ_shift (fun idx => (op idx).1) start (j + 1), rfl⟩

theorem retryRun_exhausted {α : Type} (op : Nat → List α × Option GHError) :
    ∀ (n start : Nat), 0 < n →
    (∀ j, j < n → ((op (start + j)).2).isSome = true) →
    retryRun op start n =
      (((List.range n).map (fun j => (op (start + j)).1)).flatten,
        (op (start + (n - 1))).2) := by
  intro n
  induction n with
  | zero => intro start h; omega
  | succ m ih =>
    intro start _ hfail
    cases m with
    | zero =>
      show op start = _
      have hr : List.range 1 = [0] := rfl
      simp [hr]
    | succ k =>
      have h0 : ((op start).2).isSome = true := by
        have := hfail 0 (Nat.succ_pos _)
        simpa using this
      obtain ⟨e, he⟩ := Option.isSome_iff_exists.mp h0
      have hop : op start = ((op start).1, some e) := by rw [← he]
      have hfail' : ∀ j, j < k + 1 → ((op (start + 1 + j)).2).isSome = true := by
        intro j hj
        have h2 := hfail (j + 1) (by omega)
        have h3 : start + (j + 1) = start + 1 + j := by omega
        rw [h3] at h2
        exact h2
      have ihm := ih (start + 1) (Nat.succ_pos k) hfail'
      rw [retryRun, hop]
      simp only [ihm]
      rw [Prod.mk.injEq]
      refine ⟨flatten_range_succ_shift (fun idx => (op idx).1) start (k + 1), ?_⟩
      have h4 : start + 1 + (k + 1 - 1) = start + (k + 1 + 1 - 1) := by omega
      rw [h4]

theorem fixBranchProtectionInfo_fields (bpCall : Except GHError BranchProtectionRule)
    (repo : Repository) :
    (fixBranchProtectionInfo bpCall repo).1.repository = repo.repository ∧
    (fixBranchProtectionInfo bpCall repo).1.vulnerabilityAlertsEnabled =
      repo.vulnerabilityAlertsEnabled ∧
    (fixBranchProtectionInfo bpCall repo).1.hooks = repo.hooks ∧
    (fixBranchProtectionInfo bpCall repo).1.collaborators = repo.collaborators ∧
    (fixBranchProtectionInfo bpCall repo).1.scorecard = repo.scorecard := by
  unfold fixBranchProtectionInfo
  cases hdbr : repo.repository.defaultBranchRef with
  | none => simp
  | some dbr =>
    cases hbpr : dbr.branchProtectionRule with
    | some r => simp [hbpr]
    | none =>
      cases bpCall with
      | ok r => simp [hbpr]
      | error err =>
        by_cases hperm : isNoPermErr err = true
        · simp [hbpr, hperm]
        · by_cases hsent : err = GHError.errBranchNotProtected
          · simp [hbpr, hperm, hsent, isNoPermErr]
          · simp [hbpr, hperm, hsent]

theorem getRepositoryHooks_fields (pages : List (Except Nat HookPage))
    (repo : Repository) (org : String) :
    (getRepositoryHooks pages repo org).1.repository = repo.repository ∧
    (getRepositoryHooks pages repo org).1.vulnerabilityAlertsEnabled =
      repo.vulnerabilityAlertsEnabled ∧
    (getRepositoryHooks pages repo org).1.collaborators = repo.collaborators ∧
    (getRepositoryHooks pages repo org).1.noBranchProtectionPermission =
      repo.noBranchProtectionPermission ∧
    (getRepositoryHooks pages repo org).1.scorecard = repo.scorecard ∧
    (getRepositoryHooks pages repo org).1.hooks =
      (match (runHookPages org repo.repository.name pages []).1 with
        | Except.ok hs => some hs
        | Except.error _ => repo.hooks) ∧
    (getRepositoryHooks pages repo org).2.2 =
      (runHookPages org repo.repository.name pages []).2 := by
  unfold getRepositoryHooks
  rcases h : runHookPages org repo.repository.name pages [] with ⟨res, perms⟩
  cases res with
  | error status => simp [h]
  | ok hs => simp [h]

theorem runHookPages_perms_cases (org repoName : String) :
    ∀ (pages : List (Except Nat HookPage)) (acc : List Hook),
    (runHookPages org repoName pages acc).2 = [] ∨
    (runHookPages org repoName pages acc).2 =
      [newMissingPermission Capability.RepoHookRead (fullRepoName org repoName)
        "Cannot read repository webhooks" NamespaceKind.Repository] := by
  intro pages
  induction pages with
  | nil => intro acc; left; rfl
  | cons x rest ih =>
    intro acc
    cases x with
    | error status =>
      by_cases h : status = 404
      · right; simp [runHookPages, h]
      · left; simp [runHookPages, h]
    | ok page =>
      by_cases h : page.hasNext = true
      · simpa [runHookPages, h] using ih (acc ++ page.hooks)
      · left; simp [runHookPages, h]

theorem runHookPages_firstError (org repoName : String) (st : Nat)
    (rest : List (Except Nat HookPage)) :
    ∀ (pre : List (Except Nat HookPage)) (acc : List Hook),
    (∀ x ∈ pre, ∃ pg, x = Except.ok pg ∧ pg.hasNext = true) →
    runHookPages org repoName (pre ++ Except.error st :: rest) acc =
      (Except.error st,
        if st = 404 then
          [newMissingPermission Capability.RepoHookRead (fullRepoName org repoName)
            "Cannot read repository webhooks" NamespaceKind.Repository]
        else []) := by
  intro pre
  induction pre with
  | nil => intro acc _; simp [runHookPages]
  | cons x xs ih =>
    intro acc hpre
    obtain ⟨pg, hx, hnext⟩ := hpre x (List.mem_cons_self x xs)
    subst hx
    have h2 : ∀ y ∈ xs, ∃ pg, y = Except.ok pg ∧ pg.hasNext = true :=
      fun y hy => hpre y (List.mem_cons_of_mem _ hy)
    simp [runHookPages, hnext, ih (acc ++ pg.hooks) h2]

theorem gh_repository (pages : List (Except Nat HookPage)) (repo : Repository) (org : String) :
    (getRepositoryHooks pages repo org).1.repository = repo.repository :=
  (getRepositoryHooks_fields pages repo org).1

theorem gh_vuln (pages : List (Except Nat HookPage)) (repo : Repository) (org : String) :
    (getRepositoryHooks pages repo org).1.vulnerabilityAlertsEnabled =
      repo.vulnerabilityAlertsEnabled :=
  (getRepositoryHooks_fields pages repo org).2.1

theorem gh_collab (pages : List (Except Nat HookPage)) (repo : Repository) (org : String) :
    (getRepositoryHooks pages repo org).1.collaborators = repo.collaborators :=
  (getRepositoryHooks_fields pages repo org).2.2.1

theorem gh_flag (pages : List (Except Nat HookPage)) (repo : Repository) (org : String) :
    (getRepositoryHooks pages repo org).1.noBranchProtectionPermission =
      repo.noBranchProtectionPermission :=
  (getRepositoryHooks_fields pages repo org).2.2.2.1

theorem gh_scorecard (pages : List (Except Nat HookPage)) (repo : Repository) (org : String) :
    (getRepositoryHooks pages repo org).1.scorecard = repo.scorecard :=
  (getRepositoryHooks_fields pages repo org).2.2.2.2.1

theorem gh_hooks (pages : List (Except Nat HookPage)) (repo : Repository) (org : String) :
    (getRepositoryHooks pages repo org).1.hooks =
      (match (runHookPages org repo.repository.name pages []).1 with
        | Except.ok hs => some hs
        | Except.error _ => repo.hooks) :=
  (getRepositoryHooks_fields pages repo org).2.2.2.2.2.1

theorem gh_perms (pages : List (Except Nat HookPage)) (repo : Repository) (org : String) :
    (getRepositoryHooks pages repo org).2.2 =
      (runHookPages org repo.repository.name pages []).2 :=
  (getRepositoryHooks_fields pages repo org).2.2.2.2.2.2

theorem fx_repository (bpCall : Except GHError BranchProtectionRule) (repo : Repository) :
    (fixBranchProtectionInfo bpCall repo).1.repository = repo.repository :=
  (fixBranchProtectionInfo_fields bpCall repo).1

theorem fx_vuln (bpCall : Except GHError BranchProtectionRule) (repo : Repository) :
    (fixBranchProtectionInfo bpCall repo).1.vulnerabilityAlertsEnabled =
      repo.vulnerabilityAlertsEnabled :=
  (fixBranchProtectionInfo_fields bpCall repo).2.1

theorem fx_hooks (bpCall : Except GHError BranchProtectionRule) (repo : Repository) :
    (fixBranchProtectionInfo bpCall repo).1.hooks = repo.hooks :=
  (fixBranchProtectionInfo_fields bpCall repo).2.2.1

theorem fx_collab (bpCall : Except GHError BranchProtectionRule) (repo : Repository) :
    (fixBranchProtectionInfo bpCall repo).1.collaborators = repo.collaborators :=
  (fixBranchProtectionInfo_fields bpCall repo).2.2.2.1

theorem fx_scorecard (bpCall : Except GHError BranchProtectionRule) (repo : Repository) :
    (fixBranchProtectionInfo bpCall repo).1.scorecard = repo.scorecard :=
  (fixBranchProtectionInfo_fields bpCall repo).2.2.2.2

theorem collectExtraData_spec (sce : Bool) (client : RepoClient) (org : ExtendedOrg)
    (node : GitHubQLRepository) :
    (collectExtraData sce client org node).repo.repository = node ∧
    (collectExtraData sce client org node).repo.vulnerabilityAlertsEnabled =
      (client.vulnerabilityAlerts).toOption ∧
    (collectExtraData sce client org node).repo.hooks =
      ((runHookPages org.login node.name client.hookPages []).1).toOption ∧
    (collectExtraData sce client org node).repo.collaborators =
      (client.collaborators).toOption ∧
    (collectExtraData sce client org node).repo.scorecard =
      (if sce then (client.scorecardResult).toOption else none) ∧
    (collectExtraData sce client org node).issued =
      (runHookPages org.login node.name client.hookPages []).2 ++
      (if !node.isPrivate || !org.isFree then []
       else [newMissingPermission Capability.RepoAdmin (fullRepoName org.login node.name)
         orgIsFreeEffect NamespaceKind.Repository]) ∧
    ((!node.isPrivate || !org.isFree) = false →
      (collectExtraData sce client org node).bpCalls = 0 ∧
      (collectExtraData sce client org node).repo.noBranchProtectionPermission = false) := by
  by_cases hfree : (!node.isPrivate || !org.isFree) = true
  all_goals
    simp only [collectExtraData]
    rcases hhp : runHookPages org.login node.name client.hookPages [] with ⟨hres, hperms⟩
    cases hva : client.vulnerabilityAlerts <;>
    cases hco : client.collaborators <;>
    cases hres <;>
    cases hsce : sce <;>
    cases hsc : client.scorecardResult <;>
    refine ⟨?_, ?_, ?_, ?_, ?_, ?_, ?_⟩ <;>
    simp [hfree, hhp, Except.toOption, gh_repository, gh_vuln, gh_collab, gh_flag,
      gh_scorecard, gh_hooks, gh_perms, fx_repository, fx_vuln, fx_hooks, fx_collab,
      fx_scorecard]

theorem int32wrap_eq_self (x : Int) (h0 : 0 ≤ x) (h1 : x ≤ 2 ^ 31 - 1) :
    int32wrap x = x := by
  unfold int32wrap
  have h2 : 0 ≤ x + 2 ^ 31 := by omega
  have h3 : x + 2 ^ 31 < 2 ^ 32 := by omega
  rw [Int.emod_eq_of_lt h2 h3]
  omega

theorem collectMetadata_fold (countQuery : ExtendedOrg → Except GHError Int) :
    ∀ (orgs : List ExtendedOrg) (acc : Int), 0 ≤ acc →
    (∀ c ∈ succeededCounts orgs countQuery, 0 ≤ c) →
    acc + (succeededCounts orgs countQuery).sum ≤ 2 ^ 31 - 1 →
    orgs.foldl (fun acc org =>
      match countQuery org with
      | Except.error _ => acc
      | Except.ok c => int32wrap (acc + int32wrap c)) acc =
    acc + (succeededCounts orgs countQuery).sum := by
  intro orgs
  induction orgs with
  | nil => intro acc _ _ _; simp [succeededCounts]
  | cons org rest ih =>
    intro acc hacc hpos hbound
    cases hq : countQuery org with
    | error e =>
      have hsc : succeededCounts (org :: rest) countQuery =
          succeededCounts rest countQuery := by
        simp [succeededCounts, hq, Except.toOption]
      rw [hsc] at hpos hbound
      rw [List.foldl_cons]
      simp only [hq]
      rw [hsc]
      exact ih acc hacc hpos hbound
    | ok c =>
      have hsc : succeededCounts (org :: rest) countQuery =
          c :: succeededCounts rest countQuery := by
        simp [succeededCounts, hq, Except.toOption]
      rw [hsc] at hpos hbound
      have hc0 : 0 ≤ c := hpos c (List.mem_cons_self c _)
      have hrest0 : 0 ≤ (succeededCounts rest countQuery).sum :=
        List.sum_nonneg (fun x hx => hpos x (List.mem_cons_of_mem _ hx))
      have hsum : (c :: succeededCounts rest countQuery).sum =
          c + (succeededCounts rest countQuery).sum := by simp
      rw [hsum] at hbound
      have hcb : c ≤ 2 ^ 31 - 1 := by omega
      have hwc : int32wrap c = c := int32wrap_eq_self c hc0 hcb
      have hwac : int32wrap (acc + c) = acc + c :=
        int32wrap_eq_self _ (by omega) (by omega)
      rw [List.foldl_cons]
      simp only [hq, hwc, hwac]
      have ihr := ih (acc + c) (by omega)
        (fun x hx => hpos x (List.mem_cons_of_mem _ hx)) (by omega)
      rw [ihr, hsc, hsum]
      omega

/-- C5: `CollectMetadata` sums the per-organization total counts of exactly
the organizations whose count query succeeded, silently excluding failing
ones; no MissingPermission is issued on this path; a discovery failure
yields the zero metadata. (Stated below the `int32` overflow threshold,
where the wrapped accumulator agrees with the mathematical sum.) -/
theorem c5_collect_metadata (orgs : List ExtendedOrg)
    (countQuery : ExtendedOrg → Except GHError Int)
    (hpos : ∀ c ∈ succeededCounts orgs countQuery, 0 ≤ c)
    (hbound : (succeededCounts orgs countQuery).sum ≤ 2 ^ 31 - 1) :
    (CollectMetadata (Except.ok orgs) countQuery).1.totalEntities =
      (succeededCounts orgs countQuery).sum ∧
    (CollectMetadata (Except.ok orgs) countQuery).2 = [] ∧
    (∀ e, CollectMetadata (Except.error e) countQuery =
      ({ totalEntities := 0 }, [])) := by
  refine ⟨?_, rfl, fun e => rfl⟩
  simp only [CollectMetadata]
  have h := collectMetadata_fold countQuery orgs 0 le_rfl hpos (by simpa using hbound)
  simpa using h

def orgA : ExtendedOrg := { login := "acme", role := "ADMIN", isFree := false }

def orgB : ExtendedOrg := { login := "tiny", role := "MEMBER", isFree := true }

def c5CountQuery : ExtendedOrg → Except GHError Int := fun org =>
  if org.login = "acme" then Except.ok 3 else Except.error (GHError.other "count failed")

/-- Witness for C5 at two concrete organizations, one failing count query. -/
theorem c5_collect_metadata_witness :
    (CollectMetadata (Except.ok [orgA, orgB]) c5CountQuery).1.totalEntities =
      (succeededCounts [orgA, orgB] c5CountQuery).sum ∧
    (CollectMetadata (Except.ok [orgA, orgB]) c5CountQuery).2 = [] ∧
    (∀ e, CollectMetadata (Except.error e) c5CountQuery =
      ({ totalEntities := 0 }, [])) :=
  c5_collect_metadata [orgA, orgB] c5CountQuery (by decide) (by decide)

/-- C4: a failure of organization discovery makes `Collect` emit nothing
(the one fatal path); when discovery succeeds, collection proceeds per
organization regardless of downstream failures. -/
theorem c4_discovery_failure
    (transport : ExtendedOrg → Nat → Option String → Except GHError RepoPage)
    (sce : Bool) (client : ExtendedOrg → String → RepoClient) (fuel : Nat) :
    (∀ e, Collect (Except.error e) transport sce client fuel = []) ∧
    (∀ orgs, Collect (Except.ok orgs) transport sce client fuel =
      (orgs.map (fun org =>
        (retryRun (fun attempt =>
          let run := collectRepositories (transport org attempt) sce (client org) org fuel
          (run.1, run.2.1)) 0 5).1)).flatten) :=
  ⟨fun _ => rfl, fun _ => rfl⟩

/-- C8: the shared `totalCount` accumulator of `CollectMetadata` is a bare
variable mutated by concurrently spawned closures; under the read-then-write
interleaving semantics of the unsynchronized `+=`, a valid schedule of two
incrementers loses an update (final total 1), whereas the serialized
schedule a mutual-exclusion strategy would enforce yields the true sum 2. -/
theorem c8_unsynchronized_counter :
    ValidSchedule 2 lostUpdateSchedule = true ∧
    ValidSchedule 2 serializedSchedule = true ∧
    runRace [1, 1] lostUpdateSchedule = 1 ∧
    runRace [1, 1] serializedSchedule = 2 ∧
    runRace [1, 1] lostUpdateSchedule ≠ ([1, 1] : List Int).sum := by
  refine ⟨by decide, by decide, by decide, by decide, by decide⟩

/-- C1: for a private repository of a free-plan organization the
branch-protection stage is skipped (no REST branch-protection call is made,
whatever the transport would answer) and exactly one missing permission with
capability RepoAdmin citing the free-plan restriction is recorded for the
repository. -/
theorem c1_free_private (sce : Bool) (client : String → RepoClient)
    (org : ExtendedOrg) (node : GitHubQLRepository)
    (hpriv : node.isPrivate = true) (hfree : org.isFree = true) :
    (collectExtraData sce (client node.name) org node).bpCalls = 0 ∧
    (processNode sce client org node).2.filter
      (fun m => m.effect = orgIsFreeEffect) =
      [newMissingPermission Capability.RepoAdmin (fullRepoName org.login node.name)
        orgIsFreeEffect NamespaceKind.Repository] := by
  obtain ⟨h1, h2, h3, h4, h5, h6, h7⟩ :=
    collectExtraData_spec sce (client node.name) org node
  have hcond : (!node.isPrivate || !org.isFree) = false := by simp [hpriv, hfree]
  obtain ⟨hbp, hflag⟩ := h7 hcond
  refine ⟨hbp, ?_⟩
  have hcheck : checkMissingPermissions
      (collectExtraData sce (client node.name) org node).repo
      (fullRepoName org.login
        (collectExtraData sce (client node.name) org node).repo.repository.name) = [] := by
    simp [checkMissingPermissions, hflag]
  have hne : ¬(("Cannot read repository webhooks" : String) = orgIsFreeEffect) := by decide
  simp only [processNode, h6, hcond, hcheck, Bool.false_eq_true, if_false]
  rcases runHookPages_perms_cases org.login node.name (client node.name).hookPages []
    with hp | hp <;>
    simp [hp, newMissingPermission, hne]

def emptyClient : RepoClient :=
  { vulnerabilityAlerts := Except.error (GHError.other "unavailable"),
    hookPages := [],
    collaborators := Except.error (GHError.other "unavailable"),
    branchProtection := Except.error GHError.errBranchNotProtected,
    scorecardResult := Except.error (GHError.other "unavailable") }

def freeOrg : ExtendedOrg := { login := "tiny", role := "ADMIN", isFree := true }

def privNode : GitHubQLRepository :=
  { name := "p", url := "https://example.com/p", isPrivate := true,
    viewerPermission := "ADMIN", defaultBranchRef := none }

/-- Witness for C1 at a concrete private repository of a free organization. -/
theorem c1_free_private_witness :
    (collectExtraData false ((fun _ => emptyClient) privNode.name) freeOrg privNode).bpCalls = 0 ∧
    (processNode false (fun _ => emptyClient) freeOrg privNode).2.filter
      (fun m => m.effect = orgIsFreeEffect) =
      [newMissingPermission Capability.RepoAdmin (fullRepoName freeOrg.login privNode.name)
        orgIsFreeEffect NamespaceKind.Repository] :=
  c1_free_private false (fun _ => emptyClient) freeOrg privNode rfl rfl

/-- C2: the branch-protection tri-state once the lookup actually ran (the
repository has a default branch whose structured query supplied no rule):
the canonical not-protected sentinel leaves the repository unchanged with no
error and zero missing permissions; a "Not Found" error response sets the
permission-denied flag, yields no operational error, and produces exactly
one RepoAdmin missing permission for the repository; any other error is
returned to the caller with no missing permission. -/
theorem c2_branch_protection_tristate (repo : Repository) (dbr : DefaultBranchRef)
    (entity : String)
    (h1 : repo.repository.defaultBranchRef = some dbr)
    (h2 : dbr.branchProtectionRule = none)
    (h3 : repo.noBranchProtectionPermission = false) :
    (fixBranchProtectionInfo (Except.error GHError.errBranchNotProtected) repo =
      (repo, none, true) ∧
      checkMissingPermissions repo entity = []) ∧
    (∀ st,
      (fixBranchProtectionInfo (Except.error (GHError.errorResponse "Not Found" st)) repo).1 =
        { repo with noBranchProtectionPermission := true } ∧
      (fixBranchProtectionInfo (Except.error (GHError.errorResponse "Not Found" st)) repo).2.1 =
        none ∧
      checkMissingPermissions
        (fixBranchProtectionInfo (Except.error (GHError.errorResponse "Not Found" st)) repo).1
        entity =
        [newMissingPermission Capability.RepoAdmin entity
          "Cannot read repository branch protection information"
          NamespaceKind.Repository]) ∧
    (∀ err, isNoPermErr err = false → err ≠ GHError.errBranchNotProtected →
      fixBranchProtectionInfo (Except.error err) repo = (repo, some err, true) ∧
      checkMissingPermissions repo entity = []) := by
  refine ⟨⟨?_, ?_⟩, ?_, ?_⟩
  · simp [fixBranchProtectionInfo, h1, h2, isNoPermErr]
  · simp [checkMissingPermissions, h3]
  · intro st
    refine ⟨?_, ?_, ?_⟩ <;>
      simp [fixBranchProtectionInfo, h1, h2, isNoPermErr, checkMissingPermissions]
  · intro err hperm hsent
    constructor
    · simp [fixBranchProtectionInfo, h1, h2, hperm, hsent]
    · simp [checkMissingPermissions, h3]

def protBranch : DefaultBranchRef := { name := "main", branchProtectionRule := none }

def protNode : GitHubQLRepository :=
  { name := "q", url := "https://example.com/q", isPrivate := false,
    viewerPermission := "ADMIN", defaultBranchRef := some protBranch }

def protRepo : Repository := { repository := protNode }

/-- Witness for C2 at a concrete repository with an unprotected default
branch, exercising all three lookup outcomes. -/
theorem c2_branch_protection_witness :
    (fixBranchProtectionInfo (Except.error GHError.errBranchNotProtected) protRepo =
      (protRepo, none, true)) ∧
    ((fixBranchProtectionInfo (Except.error (GHError.errorResponse "Not Found" 404)) protRepo).1 =
      { protRepo with noBranchProtectionPermission := true }) ∧
    (checkMissingPermissions
      (fixBranchProtectionInfo (Except.error (GHError.errorResponse "Not Found" 404)) protRepo).1
      "acme/q" =
      [newMissingPermission Capability.RepoAdmin "acme/q"
        "Cannot read repository branch protection information" NamespaceKind.Repository]) ∧
    (fixBranchProtectionInfo (Except.error (GHError.other "server error")) protRepo =
      (protRepo, some (GHError.other "server error"), true)) := by
  obtain ⟨⟨hA, _⟩, hB, hC⟩ :=
    c2_branch_protection_tristate protRepo protBranch "acme/q" rfl rfl rfl
  exact ⟨hA, (hB 404).1, (hB 404).2.2,
    (hC (GHError.other "server error") (by decide) (by decide)).1⟩

/-- C10: the branch-protection fix-up is the identity (no error, no flag, no
missing permission, nothing backfilled) when the repository has no default
branch, when the structured query already supplied a protection rule, or
when it supplied none but the direct REST call nevertheless succeeds (the
inconsistent-permissions case; only there is the call actually made). -/
theorem c10_fix_noop_cases (repo : Repository)
    (bpCall : Except GHError BranchProtectionRule) (entity : String)
    (hflag : repo.noBranchProtectionPermission = false) :
    (repo.repository.defaultBranchRef = none →
      fixBranchProtectionInfo bpCall repo = (repo, none, false)) ∧
    (∀ dbr rule, repo.repository.defaultBranchRef = some dbr →
      dbr.branchProtectionRule = some rule →
      fixBranchProtectionInfo bpCall repo = (repo, none, false)) ∧
    (∀ dbr rule, repo.repository.defaultBranchRef = some dbr →
      dbr.branchProtectionRule = none → bpCall = Except.ok rule →
      fixBranchProtectionInfo bpCall repo = (repo, none, true)) ∧
    checkMissingPermissions repo entity = [] := by
  refine ⟨?_, ?_, ?_, ?_⟩
  · intro h; simp [fixBranchProtectionInfo, h]
  · intro dbr rule ha hb; simp [fixBranchProtectionInfo, ha, hb]
  · intro dbr rule ha hb hc; simp [fixBranchProtectionInfo, ha, hb, hc]
  · simp [checkMissingPermissions, hflag]

def nodeR : GitHubQLRepository :=
  { name := "r", url := "https://example.com/r", isPrivate := false,
    viewerPermission := "ADMIN", defaultBranchRef := none }

/-- Witness for C10 at a concrete repository with no default branch. -/
theorem c10_fix_noop_witness :
    (fixBranchProtectionInfo (Except.error (GHError.other "ignored"))
      { repository := nodeR } = ({ repository := nodeR }, none, false)) ∧
    checkMissingPermissions { repository := nodeR } "acme/r" = [] := by
  obtain ⟨h1, h2, h3, h4⟩ :=
    c10_fix_noop_cases { repository := nodeR }
      (Except.error (GHError.other "ignored")) "acme/r" rfl
  exact ⟨h1 rfl, h4⟩

theorem processNode_repository (sce : Bool) (client : String → RepoClient)
    (org : ExtendedOrg) (node : GitHubQLRepository) :
    (processNode sce client org node).1.repository = node := by
  simp only [processNode]
  exact (collectExtraData_spec sce (client node.name) org node).1

theorem emitted_projection (transport : Option String → Except GHError RepoPage)
    (sce : Bool) (client : String → RepoClient) (org : ExtendedOrg)
    (pages : List RepoPage) (c : Option String) (fuel : Nat)
    (h : Presents transport c pages) (hf : pages.length ≤ fuel) :
    ((collectRepositoriesLoop transport sce client org fuel c).1.map
      (fun x => x.1.repository)) = (pages.map (fun p => p.nodes)).flatten := by
  rw [collectLoop_presents transport sce client org pages c h fuel hf]
  rw [List.map_flatten]
  congr 1
  rw [List.map_map]
  apply List.map_congr_left
  intro p _
  simp only [Function.comp_apply, List.map_map]
  calc p.nodes.map ((fun x => x.1.repository) ∘ processNode sce client org)
      = p.nodes.map id :=
        List.map_congr_left (fun n _ => processNode_repository sce client org n)
    _ = p.nodes := List.map_id p.nodes

/-- C6: every repository discovered by a traversal is emitted exactly once,
whatever the enrichment stages answer: the enriched record always carries
the discovered node, each failing stage merely leaves its optional field
absent, and the emitted repositories of a traversal are exactly the
discovered nodes (so neither stage errors nor missing-permission records
ever drop a repository). -/
theorem c6_repo_always_emitted (sce : Bool) (client : String → RepoClient)
    (org : ExtendedOrg) :
    (∀ (node : GitHubQLRepository),
      (collectExtraData sce (client node.name) org node).repo.repository = node ∧
      (∀ e, (client node.name).vulnerabilityAlerts = Except.error e →
        (collectExtraData sce (client node.name) org node).repo.vulnerabilityAlertsEnabled =
          none) ∧
      (∀ st, (runHookPages org.login node.name (client node.name).hookPages []).1 =
          Except.error st →
        (collectExtraData sce (client node.name) org node).repo.hooks = none) ∧
      (∀ e, (client node.name).collaborators = Except.error e →
        (collectExtraData sce (client node.name) org node).repo.collaborators = none) ∧
      (∀ e, (client node.name).scorecardResult = Except.error e →
        (collectExtraData sce (client node.name) org node).repo.scorecard = none)) ∧
    (∀ (transport : Option String → Except GHError RepoPage)
      (pages : List RepoPage) (fuel : Nat),
      Presents transport none pages → pages.length ≤ fuel →
      ((collectRepositories transport sce client org fuel).1.map
        (fun x => x.1.repository)) = (pages.map (fun p => p.nodes)).flatten) := by
  constructor
  · intro node
    obtain ⟨h1, h2, h3, h4, h5, h6, h7⟩ :=
      collectExtraData_spec sce (client node.name) org node
    refine ⟨h1, ?_, ?_, ?_, ?_⟩
    · intro e he; rw [h2, he]; rfl
    · intro st hst; rw [h3, hst]; rfl
    · intro e he; rw [h4, he]; rfl
    · intro e he; rw [h5, he]; simp [Except.toOption]
  · intro transport pages fuel hp hf
    exact emitted_projection transport sce client org pages none fuel hp hf

def errClient : RepoClient :=
  { vulnerabilityAlerts := Except.error (GHError.other "boom"),
    hookPages := [Except.error 500],
    collaborators := Except.error (GHError.other "boom"),
    branchProtection := Except.error (GHError.other "boom"),
    scorecardResult := Except.error (GHError.other "boom") }

def nodeS : GitHubQLRepository :=
  { name := "s", url := "https://example.com/s", isPrivate := true,
    viewerPermission := "WRITE", defaultBranchRef := none }

def pageOne : RepoPage :=
  { pageInfo := { hasNextPage := true, endCursor := "cur1" }, nodes := [nodeR] }

def pageTwo : RepoPage :=
  { pageInfo := { hasNextPage := false, endCursor := "cur2" }, nodes := [nodeS] }

def twoPageTransport : Option String → Except GHError RepoPage
  | none => Except.ok pageOne
  | some c => if c = "cur1" then Except.ok pageTwo else Except.error (GHError.other "bad cursor")

theorem twoPagePresents : Presents twoPageTransport none [pageOne, pageTwo] :=
  Presents.cons none pageOne [pageTwo] rfl rfl
    (Presents.last (some pageOne.pageInfo.endCursor) pageTwo (by simp [twoPageTransport, pageOne]) rfl)

/-- Witness for C6: with every enrichment stage failing the repository is
still enriched around the discovered node with all fields absent, and a
concrete two-page traversal emits exactly the discovered nodes. -/
theorem c6_repo_always_emitted_witness :
    (collectExtraData true ((fun _ => errClient) nodeR.name) orgA nodeR).repo.repository =
      nodeR ∧
    (collectExtraData true ((fun _ => errClient) nodeR.name) orgA nodeR).repo.vulnerabilityAlertsEnabled =
      none ∧
    (collectExtraData true ((fun _ => errClient) nodeR.name) orgA nodeR).repo.hooks = none ∧
    (collectExtraData true ((fun _ => errClient) nodeR.name) orgA nodeR).repo.collaborators =
      none ∧
    (collectExtraData true ((fun _ => errClient) nodeR.name) orgA nodeR).repo.scorecard =
      none ∧
    ((collectRepositories twoPageTransport true (fun _ => errClient) orgA 2).1.map
      (fun x => x.1.repository)) = ([pageOne, pageTwo].map (fun p => p.nodes)).flatten := by
  obtain ⟨h1, h2, h3, h4, h5⟩ :=
    (c6_repo_always_emitted true (fun _ => errClient) orgA).1 nodeR
  exact ⟨h1, h2 (GHError.other "boom") rfl, h3 500 rfl,
    h4 (GHError.other "boom") rfl, h5 (GHError.other "boom") rfl,
    (c6_repo_always_emitted true (fun _ => errClient) orgA).2 twoPageTransport
      [pageOne, pageTwo] 2 twoPagePresents (by decide)⟩

/-- C7: over a transport deterministically presenting non-overlapping pages
the traversal emits exactly the concatenation of the page node lists (the
count is the sum of the page-item counts, with no duplicates when the pages
do not overlap), queries strictly sequentially feeding each page's end
cursor into the next query, and on the first transport error stops and
returns that error having emitted exactly the earlier pages. -/
theorem c7_pagination (transport : Option String → Except GHError RepoPage)
    (sce : Bool) (client : String → RepoClient) (org : ExtendedOrg) :
    (∀ (pages : List RepoPage) (fuel : Nat),
      Presents transport none pages → pages.length ≤ fuel →
      (collectRepositories transport sce client org fuel =
        ((pages.map (fun p => p.nodes.map (processNode sce client org))).flatten, none,
          cursorsOf none pages)) ∧
      (collectRepositories transport sce client org fuel).1.length =
        (pages.map (fun p => p.nodes.length)).sum ∧
      ((pages.map (fun p => p.nodes)).flatten.Nodup →
        ((collectRepositories transport sce client org fuel).1.map
          (fun x => x.1.repository)).Nodup)) ∧
    (∀ (pages : List RepoPage) (e : GHError) (fuel : Nat),
      PresentsThenErr transport none pages e → pages.length < fuel →
      (collectRepositories transport sce client org fuel).1 =
        (pages.map (fun p => p.nodes.map (processNode sce client org))).flatten ∧
      (collectRepositories transport sce client org fuel).2.1 = some e) := by
  constructor
  · intro pages fuel hp hf
    have heq : collectRepositories transport sce client org fuel =
        ((pages.map (fun p => p.nodes.map (processNode sce client org))).flatten, none,
          cursorsOf none pages) :=
      collectLoop_presents transport sce client org pages none hp fuel hf
    have hproj : ((collectRepositories transport sce client org fuel).1.map
        (fun x => x.1.repository)) = (pages.map (fun p => p.nodes)).flatten :=
      emitted_projection transport sce client org pages none fuel hp hf
    refine ⟨heq, ?_, ?_⟩
    · rw [heq]
      simp only [List.length_flatten, List.map_map]
      congr 1
      apply List.map_congr_left
      intro p _
      simp
    · intro hnd
      rw [hproj]
      exact hnd
  · intro pages e fuel hp hf
    exact collectLoop_presentsThenErr transport sce client org pages none e hp fuel hf

/-- Witness for C7 at a concrete deterministic two-page transport. -/
theorem c7_pagination_witness :
    collectRepositories twoPageTransport false (fun _ => emptyClient) orgA 2 =
      (([pageOne, pageTwo].map
        (fun p => p.nodes.map (processNode false (fun _ => emptyClient) orgA))).flatten,
        none, cursorsOf none [pageOne, pageTwo]) :=
  ((c7_pagination twoPageTransport false (fun _ => emptyClient) orgA).1
    [pageOne, pageTwo] 2 twoPagePresents (by decide)).1

/-- C9: when the webhook listing fails, the hooks field is left absent and
the repository is still enriched around its node; if the failing response
status is 404 exactly one RepoHookRead missing permission ("Cannot read
repository webhooks") is recorded for the repository, and on any other
status none is. -/
theorem c9_hooks_404 (sce : Bool) (client : RepoClient) (org : ExtendedOrg)
    (node : GitHubQLRepository) (pre rest : List (Except Nat HookPage)) (st : Nat)
    (hpages : client.hookPages = pre ++ Except.error st :: rest)
    (hpre : ∀ x ∈ pre, ∃ pg, x = Except.ok pg ∧ pg.hasNext = true) :
    (collectExtraData sce client org node).repo.hooks = none ∧
    (collectExtraData sce client org node).repo.repository = node ∧
    (st = 404 →
      (collectExtraData sce client org node).issued.filter
        (fun m => m.permission = Capability.RepoHookRead) =
        [newMissingPermission Capability.RepoHookRead (fullRepoName org.login node.name)
          "Cannot read repository webhooks" NamespaceKind.Repository]) ∧
    (st ≠ 404 →
      (collectExtraData sce client org node).issued.filter
        (fun m => m.permission = Capability.RepoHookRead) = []) := by
  obtain ⟨h1, h2, h3, h4, h5, h6, h7⟩ := collectExtraData_spec sce client org node
  have hrun := runHookPages_firstError org.login node.name st rest pre [] hpre
  rw [hpages, hrun] at h3 h6
  refine ⟨?_, h1, ?_, ?_⟩
  · rw [h3]; rfl
  · intro h404
    subst h404
    rw [h6]
    by_cases hc : (!node.isPrivate || !org.isFree) = true <;>
      simp [hc, newMissingPermission]
  · intro h404
    rw [h6]
    by_cases hc : (!node.isPrivate || !org.isFree) = true <;>
      simp [hc, h404, newMissingPermission]

def hookPageOk : Except Nat HookPage := Except.ok { hooks := ["w1"], hasNext := true }

def hookClient404 : RepoClient :=
  { vulnerabilityAlerts := Except.ok true,
    hookPages := [hookPageOk, Except.error 404],
    collaborators := Except.ok ["alice"],
    branchProtection := Except.error GHError.errBranchNotProtected,
    scorecardResult := Except.ok 7 }

/-- Witness for C9 at a concrete client whose second webhook page call
fails with status 404. -/
theorem c9_hooks_404_witness :
    (collectExtraData false hookClient404 orgA nodeR).repo.hooks = none ∧
    (collectExtraData false hookClient404 orgA nodeR).issued.filter
      (fun m => m.permission = Capability.RepoHookRead) =
      [newMissingPermission Capability.RepoHookRead (fullRepoName orgA.login nodeR.name)
        "Cannot read repository webhooks" NamespaceKind.Repository] := by
  have hpre : ∀ x ∈ [hookPageOk], ∃ pg, x = Except.ok pg ∧ pg.hasNext = true := by
    intro x hx
    rw [List.mem_singleton] at hx
    subst hx
    exact ⟨{ hooks := ["w1"], hasNext := true }, rfl, rfl⟩
  obtain ⟨hh, hrep, h404, hno⟩ :=
    c9_hooks_404 false hookClient404 orgA nodeR [hookPageOk] [] 404 rfl hpre
  exact ⟨hh, h404 rfl⟩

def failingPageTransport : Nat → Option String → Except GHError RepoPage := fun _ cursor =>
  match cursor with
  | none => Except.ok { pageInfo := { hasNextPage := true, endCursor := "c1" }, nodes := [nodeR] }
  | some _ => Except.error (GHError.other "server error")

/-- C3 counterexample: one organization whose traversal fails on its second
page in every one of the 5 retry attempts. The retry cap is exhausted (the
last error surfaces), yet the organization's contribution is not dropped:
the first page's repository was emitted in each attempt, so `Collect`
emits 5 copies instead of the 0 the claim requires. -/
theorem c3_retry_counterexample :
    (Collect (Except.ok [orgA]) (fun _ => failingPageTransport) false
      (fun _ _ => emptyClient) 2).length = 5 ∧
    (retryRun (fun attempt =>
      let run := collectRepositories (failingPageTransport attempt) false
        (fun _ => emptyClient) orgA 2
      (run.1, run.2.1)) 0 5).2 = some (GHError.other "server error") ∧
    (5 : Nat) ≠ 0 := by
  refine ⟨by decide, by decide, by decide⟩

/-- C3 (amended): any error during an organization's repository traversal
causes the whole traversal to be re-invoked from scratch (each attempt
starts again from the nil cursor), up to a cap of 5 attempts, until an
attempt succeeds or attempts are exhausted, in which case the last error
surfaces from the retry runner and is discarded by `Collect`; collection
always continues for the other organizations. Entities emitted by pages
processed before each failure are not retracted, so a failing
organization's partial contribution remains (duplicated across attempts)
rather than being dropped. -/
theorem c3_retry_amended (discoveryOrgs : List ExtendedOrg)
    (transport : ExtendedOrg → Nat → Option String → Except GHError RepoPage)
    (sce : Bool) (client : ExtendedOrg → String → RepoClient) (fuel : Nat) :
    (Collect (Except.ok discoveryOrgs) transport sce client fuel =
      (discoveryOrgs.map (fun org =>
        (retryRun (fun attempt =>
          let run := collectRepositories (transport org attempt) sce (client org) org fuel
          (run.1, run.2.1)) 0 5).1)).flatten) ∧
    (∀ (α : Type) (op : Nat → List α × Option GHError) (i : Nat), i < 5 →
      (∀ j, j < i → ((op j).2).isSome = true) → (op i).2 = none →
      retryRun op 0 5 = (((List.range (i + 1)).map (fun j => (op j).1)).flatten, none)) ∧
    (∀ (α : Type) (op : Nat → List α × Option GHError),
      (∀ j, j < 5 → ((op j).2).isSome = true) →
      retryRun op 0 5 =
        (((List.range 5).map (fun j => (op j).1)).flatten, (op 4).2)) ∧
    (∀ (org : ExtendedOrg) (attempt f : Nat),
      ((collectRepositories (transport org attempt) sce (client org) org (f + 1)).2.2).head? =
        some none) := by
  refine ⟨rfl, ?_, ?_, ?_⟩
  · intro α op i hi hfail hok
    have h := retryRun_first_success op i 5 0 hi (by simpa using hfail) (by simpa using hok)
    simpa using h
  · intro α op hfail
    have h := retryRun_exhausted op 5 0 (by decide) (by simpa using hfail)
    simpa using h
  · intro org attempt f
    cases h : transport org attempt none with
    | error e => simp [collectRepositories, collectRepositoriesLoop, h]
    | ok page =>
      cases hn : page.pageInfo.hasNextPage <;>
        simp [collectRepositories, collectRepositoriesLoop, h, hn]

def retryProbeOp : Nat → List Nat × Option GHError := fun attempt =>
  ([attempt], if attempt < 2 then some (GHError.other "transient") else none)

/-- Witness for the amended C3: an operation failing twice then succeeding
on the third attempt accumulates the three attempts' outputs and succeeds. -/
theorem c3_retry_amended_witness :
    retryRun retryProbeOp 0 5 =
      (((List.range 3).map (fun j => (retryProbeOp j).1)).flatten, none) :=
  (c3_retry_amended [] (fun _ _ _ => Except.error (GHError.other "x")) false
    (fun _ _ => emptyClient) 0).2.1 Nat retryProbeOp 2 (by decide) (by decide) (by decide)

end Legitify
